import Mathlib

/-!
Shallow embedding of the `slk581` Rust crate (`src/lib.rs`).

The crate exposes a single pure function `encode` that turns four optional
textual inputs (family name, given name, date of birth, sex) into a
14-character Statistical Linkage Key `XXXZZDDMMYYYYN`, or a typed error.

Strings are modelled by Lean `String`; Rust `Option<&str>` by `Option String`;
`Result<String, SLK581Error>` by `Except SLK581Error String`.  The one
panic site that is guarded by a *caller* rather than locally —
`name.unwrap()` inside `encode_name`, whose guard lives in
`encode_family_name` / `encode_given_name` — is modelled by an `Option`
result (`none` = panic), so that top-level totality is a real theorem.
-/

namespace SLK581

/-- The error enumeration `SLK581Error` of `src/lib.rs`.  The Rust type
borrows the offending sex string; here the error owns the string. -/
inductive SLK581Error where
  | InvalidDateOfBirth : SLK581Error
  | UnknownDateOfBirth : SLK581Error
  | UnsupportedSex : String → SLK581Error
deriving DecidableEq, Repr

/-- Placeholder for unknown family name `999`. -/
def UNKNOWN_FAMILY_NAME : String := "999"

/-- Placeholder for unknown given name `99`. -/
def UNKNOWN_GIVEN_NAME : String := "99"

/-- Placeholder for missing character in given or family name `2`. -/
def UNKNOWN_CHARACTER_IN_NAME : Char := '2'

/-- Male code `1`. -/
def MALE : String := "1"

/-- Female code `2`. -/
def FEMALE : String := "2"

/-- Transgender code `3`. -/
def TRANSGENDER : String := "3"

/-- Placeholder for unknown sex `3`. -/
def UNKNOWN_SEX : String := "3"

/-- Rust `str::to_uppercase`, at ASCII fidelity: uppercase each character.
(Rust applies the full Unicode mapping; every input the crate's tests and
the spec exercise is ASCII, and non-ASCII letters uppercase to non-ASCII
letters under both models, so both are then dropped by `sanitize_name`.) -/
def to_uppercase (s : String) : String := String.mk (s.toList.map Char.toUpper)

/-- Rust `str::to_lowercase`, at ASCII fidelity: lowercase each character. -/
def to_lowercase (s : String) : String := String.mk (s.toList.map Char.toLower)

/-- `sanitize_name`: keep exactly the characters in the range `'A' ... 'Z'`,
drop everything else (the Rust loop pushes a char only in the `'A' ... 'Z'`
match arm). -/
def sanitize_name (name : String) : String :=
  String.mk (name.toList.filter (fun c => decide ('A' ≤ c) && decide (c ≤ 'Z')))

/-- One step of Rust's `Iterator::nth(position)` on the character stream,
followed by the recursion over the remaining requested positions: `nth n`
consumes `n + 1` elements and returns the element at relative index `n`
(so `chars.drop position` is either empty — the lookup misses and the
placeholder is emitted — or starts with the looked-up character, and the
iterator continues after it).  This is the body of the `map` over `vec_pos`
in `encode_name`, with the mutable `chars_iter` made an explicit argument. -/
def lookup_positions : List Nat → List Char → List Char
  | [], _ => []
  | position :: rest_pos, chars =>
    match chars.drop position with
    | [] => UNKNOWN_CHARACTER_IN_NAME :: lookup_positions rest_pos []
    | c :: rest => c :: lookup_positions rest_pos rest

/-- `encode_name`: uppercase, sanitize, limit the character iterator to the
first `take` characters, then perform the `vec_pos` lookups against the
single advancing iterator.  The Rust code calls `name.unwrap()`: an absent
`name` panics, modelled by `none`. -/
def encode_name (name : Option String) (take : Nat) (vec_pos : List Nat) :
    Option String :=
  name.map (fun n =>
    let clean_name := sanitize_name (to_uppercase n)
    String.mk (lookup_positions vec_pos (clean_name.toList.take take)))

/-- `encode_family_name`: `999` when absent, else `encode_name` with a
5-character window and positions `[1, 0, 1]`. -/
def encode_family_name (family_name : Option String) : Option String :=
  if family_name.isNone then some UNKNOWN_FAMILY_NAME
  else encode_name family_name 5 [1, 0, 1]

/-- `encode_given_name`: `99` when absent, else `encode_name` with a
3-character window and positions `[1, 0]`. -/
def encode_given_name (given_name : Option String) : Option String :=
  if given_name.isNone then some UNKNOWN_GIVEN_NAME
  else encode_name given_name 3 [1, 0]

/-- A parsed calendar date. -/
structure Date where
  year : Nat
  month : Nat
  day : Nat
deriving DecidableEq, Repr

/-- Proleptic Gregorian leap-year rule. -/
def isLeapYear (y : Nat) : Bool :=
  (y % 4 == 0 && y % 100 != 0) || y % 400 == 0

/-- Number of days of month `m` in year `y`. -/
def daysInMonth (y m : Nat) : Nat :=
  if m == 2 then (if isLeapYear y then 29 else 28)
  else if m == 4 || m == 6 || m == 9 || m == 11 then 30
  else 31

/-- Numeric value of a decimal digit character. -/
def digitVal (c : Char) : Nat := c.toNat - 48

/-- Modelled from the spec: the crate delegates date parsing to the external
`chrono` crate (`NaiveDate::parse_from_str` with format `%Y-%m-%d`), which is
not part of this repository.  Following the spec's "parse input strictly as
`YYYY-MM-DD`", the input must be exactly four digits, a hyphen, two digits,
a hyphen and two digits, and must denote a valid proleptic Gregorian
calendar date. -/
def parse_date (s : String) : Option Date :=
  match s.toList with
  | [y1, y2, y3, y4, '-', m1, m2, '-', d1, d2] =>
    if y1.isDigit && y2.isDigit && y3.isDigit && y4.isDigit &&
       m1.isDigit && m2.isDigit && d1.isDigit && d2.isDigit then
      let y := ((digitVal y1 * 10 + digitVal y2) * 10 + digitVal y3) * 10 + digitVal y4
      let m := digitVal m1 * 10 + digitVal m2
      let d := digitVal d1 * 10 + digitVal d2
      if 1 ≤ m ∧ m ≤ 12 ∧ 1 ≤ d ∧ d ≤ daysInMonth y m then some ⟨y, m, d⟩
      else none
    else none
  | _ => none

/-- The decimal digit character for `n % 10`. -/
def digitChar (n : Nat) : Char := Char.ofNat (48 + n % 10)

/-- Two-digit zero-padded decimal rendering (exact for values below 100,
which covers every day and month a parsed date can hold). -/
def pad2 (n : Nat) : List Char := [digitChar (n / 10), digitChar n]

/-- Four-digit zero-padded decimal rendering (exact for values below 10000,
which covers every year a parsed date can hold). -/
def pad4 (n : Nat) : List Char :=
  [digitChar (n / 1000), digitChar (n / 100), digitChar (n / 10), digitChar n]

/-- Modelled from the spec: `chrono`'s output format `%d%m%Y` — two-digit
day, two-digit month, four-digit year, each zero-padded. -/
def format_date (d : Date) : String :=
  String.mk (pad2 d.day ++ pad2 d.month ++ pad4 d.year)

/-- `encode_date_of_birth`: absent input is `UnknownDateOfBirth`; a present
input that fails to parse is `InvalidDateOfBirth`; otherwise the parsed date
is re-rendered as `DDMMYYYY`.  The two Rust `unwrap`s are guarded by the
preceding `is_none` / `is_err` checks, which the `match`es translate. -/
def encode_date_of_birth (date_of_birth : Option String) :
    Except SLK581Error String :=
  match date_of_birth with
  | none => Except.error SLK581Error.UnknownDateOfBirth
  | some s =>
    match parse_date s with
    | none => Except.error SLK581Error.InvalidDateOfBirth
    | some d => Except.ok (format_date d)

/-- `encode_sex`: absent input maps to the unknown code `3`; otherwise the
lower-cased input is matched against the vocabulary, and an unrecognized
value is returned inside the error verbatim (the original `_sex`, not the
lower-cased `lc_sex`).  The Rust `unwrap` is guarded by the `is_none` check. -/
def encode_sex (sex : Option String) : Except SLK581Error String :=
  match sex with
  | none => Except.ok UNKNOWN_SEX
  | some s =>
    let lc_sex := to_lowercase s
    if lc_sex = "m" ∨ lc_sex = "male" then Except.ok MALE
    else if lc_sex = "f" ∨ lc_sex = "female" then Except.ok FEMALE
    else if lc_sex = "t" ∨ lc_sex = "trans" then Except.ok TRANSGENDER
    else Except.error (SLK581Error.UnsupportedSex s)

/-- `encode`: the two name codes are computed first (they never fail, but a
`none` from them would be a panic, propagated here as `none`); then the date
code and the sex code, each short-circuiting with `try!`; finally the four
pieces are concatenated in order. -/
def encode (family_name given_name date_of_birth sex : Option String) :
    Option (Except SLK581Error String) :=
  match encode_family_name family_name, encode_given_name given_name with
  | some efn, some egn =>
    match encode_date_of_birth date_of_birth with
    | Except.error e => some (Except.error e)
    | Except.ok edob =>
      match encode_sex sex with
      | Except.error e => some (Except.error e)
      | Except.ok esex => some (Except.ok (efn ++ egn ++ edob ++ esex))
  | _, _ => none

/-! ### Basic facts about the embedded functions -/

theorem lookup_positions_length (ps : List Nat) :
    ∀ cs : List Char, (lookup_positions ps cs).length = ps.length := by
  induction ps with
  | nil => intro cs; rfl
  | cons p ps ih =>
    intro cs
    unfold lookup_positions
    cases h : cs.drop p with
    | nil => simp [ih]
    | cons c rest => simp [ih]

/-- The family-name code as a total function: the value under the `some`
that `encode_family_name` always returns. -/
def family_code (family_name : Option String) : String :=
  match family_name with
  | none => UNKNOWN_FAMILY_NAME
  | some n => String.mk (lookup_positions [1, 0, 1]
      ((sanitize_name (to_uppercase n)).toList.take 5))

/-- The given-name code as a total function: the value under the `some`
that `encode_given_name` always returns. -/
def given_code (given_name : Option String) : String :=
  match given_name with
  | none => UNKNOWN_GIVEN_NAME
  | some n => String.mk (lookup_positions [1, 0]
      ((sanitize_name (to_uppercase n)).toList.take 3))

theorem encode_family_name_eq (fn : Option String) :
    encode_family_name fn = some (family_code fn) := by
  cases fn <;> rfl

theorem encode_given_name_eq (gn : Option String) :
    encode_given_name gn = some (given_code gn) := by
  cases gn <;> rfl

/-- The value under the `some` that `encode` always returns. -/
def encode_result (family_name given_name date_of_birth sex : Option String) :
    Except SLK581Error String :=
  match encode_date_of_birth date_of_birth with
  | Except.error e => Except.error e
  | Except.ok edob =>
    match encode_sex sex with
    | Except.error e => Except.error e
    | Except.ok esex =>
      Except.ok (family_code family_name ++ given_code given_name ++ edob ++ esex)

theorem encode_eq (fn gn dob sex : Option String) :
    encode fn gn dob sex = some (encode_result fn gn dob sex) := by
  unfold encode encode_result
  rw [encode_family_name_eq fn, encode_given_name_eq gn]
  cases encode_date_of_birth dob with
  | error e => rfl
  | ok edob =>
    cases encode_sex sex with
    | error e => rfl
    | ok esex => rfl

theorem family_code_length (fn : Option String) : (family_code fn).length = 3 := by
  cases fn with
  | none => rfl
  | some n => simp [family_code, String.length_mk, lookup_positions_length]

theorem given_code_length (gn : Option String) : (given_code gn).length = 2 := by
  cases gn with
  | none => rfl
  | some n => simp [given_code, String.length_mk, lookup_positions_length]

theorem format_date_length (d : Date) : (format_date d).length = 8 := rfl

theorem encode_date_of_birth_ok (dob : Option String) (s : String)
    (h : encode_date_of_birth dob = Except.ok s) :
    ∃ t d, dob = some t ∧ parse_date t = some d ∧ s = format_date d := by
  cases dob with
  | none => simp [encode_date_of_birth] at h
  | some t =>
    cases hp : parse_date t with
    | none => simp [encode_date_of_birth, hp] at h
    | some d =>
      refine ⟨t, d, rfl, hp, ?_⟩
      simp [encode_date_of_birth, hp] at h
      exact h.symm

theorem encode_sex_ok (sex : Option String) (s : String)
    (h : encode_sex sex = Except.ok s) :
    s = MALE ∨ s = FEMALE ∨ s = TRANSGENDER ∨ s = UNKNOWN_SEX := by
  cases sex with
  | none =>
    simp only [encode_sex, Except.ok.injEq] at h
    exact Or.inr (Or.inr (Or.inr h.symm))
  | some v =>
    simp only [encode_sex] at h
    split_ifs at h <;> simp_all

theorem encode_sex_ok_length (sex : Option String) (s : String)
    (h : encode_sex sex = Except.ok s) : s.length = 1 := by
  rcases encode_sex_ok sex s h with h1 | h1 | h1 | h1 <;> (subst h1; rfl)


theorem encode_date_of_birth_error (dob : Option String) (e : SLK581Error)
    (h : encode_date_of_birth dob = Except.error e) :
    e = SLK581Error.UnknownDateOfBirth ∨ e = SLK581Error.InvalidDateOfBirth := by
  cases dob with
  | none =>
    simp only [encode_date_of_birth, Except.error.injEq] at h
    exact Or.inl h.symm
  | some t =>
    cases hp : parse_date t with
    | none =>
      simp only [encode_date_of_birth, hp, Except.error.injEq] at h
      exact Or.inr h.symm
    | some d => simp [encode_date_of_birth, hp] at h

theorem encode_sex_error (sex : Option String) (e : SLK581Error)
    (h : encode_sex sex = Except.error e) :
    ∃ v, sex = some v ∧ e = SLK581Error.UnsupportedSex v := by
  cases sex with
  | none => simp [encode_sex] at h
  | some v =>
    refine ⟨v, rfl, ?_⟩
    simp only [encode_sex] at h
    split_ifs at h <;> simp_all

theorem key_slice (a b c e : String) (ha : a.length = 3) (hb : b.length = 2)
    (hc : c.length = 8) :
    ((a ++ b ++ c ++ e).toList.drop 5).take 8 = c.toList := by
  have hdata : (a ++ b ++ c ++ e).toList =
      (a.toList ++ b.toList) ++ (c.toList ++ e.toList) := by
    show (a ++ b ++ c ++ e).data = (a.data ++ b.data) ++ (c.data ++ e.data)
    simp [String.data_append, List.append_assoc]
  have h5 : (a.toList ++ b.toList).length = 5 := by
    rw [List.length_append]
    show a.length + b.length = 5
    rw [ha, hb]
  have h8 : (c.toList).length = 8 := hc
  rw [hdata, ← h5, List.drop_left, ← h8, List.take_left]


/-! ### The spec's cursor description and direct indexing -/

/-- Modelled from the spec: the lookup scheme described in the spec's own
words — a single monotonically advancing cursor over the (windowed) cleaned
letter stream.  Each lookup adds its offset to the cursor, reads that
absolute position of the window, and leaves the cursor just past the
position it visited; a lookup beyond the available letters yields the
placeholder and still advances the cursor, so no position is ever re-read. -/
def spec_cursor_go (offsets : List Nat) (window : List Char) (cursor : Nat) :
    List Char :=
  match offsets with
  | [] => []
  | off :: rest =>
    match window.get? (cursor + off) with
    | some c => c :: spec_cursor_go rest window (cursor + off + 1)
    | none => UNKNOWN_CHARACTER_IN_NAME :: spec_cursor_go rest window (cursor + off + 1)

/-- Modelled from the spec: the family-name code in the spec's words —
`999` when absent, else offsets `[1, 0, 1]` over the first 5 cleaned
letters with an advancing cursor. -/
def spec_family_name_code : Option String → String
  | none => "999"
  | some n =>
    String.mk (spec_cursor_go [1, 0, 1] ((sanitize_name (to_uppercase n)).toList.take 5) 0)

/-- Modelled from the spec: the given-name code in the spec's words —
`99` when absent, else offsets `[1, 0]` over the first 3 cleaned letters
with an advancing cursor. -/
def spec_given_name_code : Option String → String
  | none => "99"
  | some n =>
    String.mk (spec_cursor_go [1, 0] ((sanitize_name (to_uppercase n)).toList.take 3) 0)

theorem drop_eq_cons_of_get (w : List Char) (n : Nat) (ch : Char)
    (h : w.get? n = some ch) : w.drop n = ch :: w.drop (n + 1) := by
  induction w generalizing n with
  | nil => simp at h
  | cons a t ih =>
    cases n with
    | zero => simp_all
    | succ m =>
      simp only [List.get?_cons_succ] at h
      simpa using ih m h

theorem lookup_positions_eq_cursor (ps : List Nat) :
    ∀ (w : List Char) (c : Nat), lookup_positions ps (w.drop c) = spec_cursor_go ps w c := by
  induction ps with
  | nil => intro w c; rfl
  | cons p rest ih =>
    intro w c
    unfold lookup_positions spec_cursor_go
    have hdd : (w.drop c).drop p = w.drop (c + p) := by rw [List.drop_drop]
    cases hw : w.get? (c + p) with
    | none =>
      have hlen : w.length ≤ c + p := List.get?_eq_none.mp hw
      have hnil : (w.drop c).drop p = [] := by
        rw [hdd]
        exact List.drop_eq_nil_iff.mpr hlen
      rw [hnil]
      have hnil2 : w.drop (c + p + 1) = [] := by
        apply List.drop_eq_nil_iff.mpr
        omega
      have := ih w (c + p + 1)
      rw [hnil2] at this
      rw [this]
    | some ch =>
      have hcons : (w.drop c).drop p = ch :: w.drop (c + p + 1) := by
        rw [hdd]
        exact drop_eq_cons_of_get w (c + p) ch hw
      rw [hcons]
      exact congrArg (fun l => ch :: l) (ih w (c + p + 1))

theorem lookup_positions_eq_cursor_zero (ps : List Nat) (w : List Char) :
    lookup_positions ps w = spec_cursor_go ps w 0 := by
  have h := lookup_positions_eq_cursor ps w 0
  rwa [List.drop_zero] at h

/-- Direct 0-based indexing into the cleaned letters, with the placeholder
for an index beyond the end. -/
def char_at (cs : List Char) (i : Nat) : Char :=
  (cs.get? i).getD UNKNOWN_CHARACTER_IN_NAME

theorem take5_lookup_101 (w : List Char) :
    lookup_positions [1, 0, 1] (w.take 5) = [char_at w 1, char_at w 2, char_at w 4] :=
  match w with
  | [] => rfl
  | [_] => rfl
  | [_, _] => rfl
  | [_, _, _] => rfl
  | [_, _, _, _] => rfl
  | _ :: _ :: _ :: _ :: _ :: _ => rfl

theorem take3_lookup_10 (w : List Char) :
    lookup_positions [1, 0] (w.take 3) = [char_at w 1, char_at w 2] :=
  match w with
  | [] => rfl
  | [_] => rfl
  | [_, _] => rfl
  | _ :: _ :: _ :: _ => rfl


/-! ### The claims -/

/-- C1: whenever `encode` returns `Ok`, the returned key has length exactly
14: the 3-char family-name code, the 2-char given-name code, the 8-char
date code and the 1-char sex code, concatenated in that order. -/
theorem C1_encode_ok_length (fn gn dob sex : Option String) (r : String)
    (h : encode fn gn dob sex = some (Except.ok r)) : r.length = 14 := by
  rw [encode_eq] at h
  unfold encode_result at h
  cases hd : encode_date_of_birth dob with
  | error e => rw [hd] at h; simp at h
  | ok edob =>
    rw [hd] at h
    cases hs : encode_sex sex with
    | error e => rw [hs] at h; simp at h
    | ok esex =>
      rw [hs] at h
      simp only [Option.some.injEq, Except.ok.injEq] at h
      subst h
      rw [String.length_append, String.length_append, String.length_append,
        family_code_length, given_code_length, encode_sex_ok_length sex esex hs]
      obtain ⟨t, d, -, -, hfmt⟩ := encode_date_of_birth_ok dob edob hd
      rw [hfmt, format_date_length]

/-- Witness for C1: a concrete successful call, and its key has length 14. -/
theorem C1_encode_ok_length_witness : ("99999191220003" : String).length = 14 :=
  C1_encode_ok_length none none (some "2000-12-19") none "99999191220003" rfl

/-- C2: the name codes follow the spec's advancing-cursor scheme: a present
family name yields three lookups with offsets 1, 0, 1 over the first 5
cleaned letters against a single forward cursor that never re-reads a
position (placeholder `2` on a miss); a present given name yields two
lookups with offsets 1, 0 over the first 3 cleaned letters; an absent
family name yields `999` and an absent given name `99`. -/
theorem C2_cursor_scheme (fn gn : Option String) :
    encode_family_name fn = some (spec_family_name_code fn) ∧
    encode_given_name gn = some (spec_given_name_code gn) ∧
    spec_family_name_code none = "999" ∧ spec_given_name_code none = "99" := by
  refine ⟨?_, ?_, rfl, rfl⟩
  · cases fn with
    | none => rfl
    | some n =>
      rw [encode_family_name_eq]
      simp [family_code, spec_family_name_code, lookup_positions_eq_cursor_zero]
  · cases gn with
    | none => rfl
    | some n =>
      rw [encode_given_name_eq]
      simp [given_code, spec_given_name_code, lookup_positions_eq_cursor_zero]

/-- C3: name sanitization upper-cases the input and keeps exactly the
uppercase Latin letters `A`–`Z`, dropping everything else without
transliteration: every character of the cleaned stream lies in `A`–`Z`,
and the spec's examples hold — `O-B` sanitizes to `OB` and `O` followed by
an apostrophe and `Ber` sanitizes to `OBER`. -/
theorem C3_sanitize_only_letters (name : String) (c : Char)
    (hc : c ∈ (sanitize_name (to_uppercase name)).toList) :
    ('A' ≤ c ∧ c ≤ 'Z') ∧
    sanitize_name (to_uppercase "O-B") = "OB" ∧
    sanitize_name (to_uppercase (String.mk ['O', Char.ofNat 39, 'B', 'e', 'r'])) = "OBER" := by
  refine ⟨?_, rfl, rfl⟩
  replace hc : c ∈ List.filter (fun ch => decide ('A' ≤ ch) && decide (ch ≤ 'Z'))
      (to_uppercase name).toList := hc
  rw [List.mem_filter] at hc
  simpa using hc.2

/-- Witness for C3 at the concrete name `O-B` and its cleaned character `O`. -/
theorem C3_sanitize_only_letters_witness :
    ('A' ≤ 'O' ∧ 'O' ≤ 'Z') ∧
    sanitize_name (to_uppercase "O-B") = "OB" ∧
    sanitize_name (to_uppercase (String.mk ['O', Char.ofNat 39, 'B', 'e', 'r'])) = "OBER" :=
  C3_sanitize_only_letters "O-B" 'O' (by decide)

/-- C7: the two concrete end-to-end examples: absent names with a valid date
and absent sex give `99999191220003`, and Doe / John / 2000-12-19 / m give
`OE2OH191220001`. -/
theorem C7_concrete_examples :
    encode none none (some "2000-12-19") none = some (Except.ok "99999191220003") ∧
    encode (some "Doe") (some "John") (some "2000-12-19") (some "m") =
      some (Except.ok "OE2OH191220001") :=
  ⟨rfl, rfl⟩

/-- C8: `encode` is deterministic and pure: two calls whose four inputs are
pairwise equal return the same result — the embedding is a function of its
arguments alone, with no other state to read. -/
theorem C8_deterministic (fn1 gn1 dob1 sex1 fn2 gn2 dob2 sex2 : Option String)
    (hfn : fn1 = fn2) (hgn : gn1 = gn2) (hdob : dob1 = dob2) (hsex : sex1 = sex2) :
    encode fn1 gn1 dob1 sex1 = encode fn2 gn2 dob2 sex2 := by
  rw [hfn, hgn, hdob, hsex]

/-- Witness for C8 at a concrete repeated call. -/
theorem C8_deterministic_witness :
    encode (some "Doe") (some "John") (some "2000-12-19") (some "m") =
      encode (some "Doe") (some "John") (some "2000-12-19") (some "m") :=
  C8_deterministic (some "Doe") (some "John") (some "2000-12-19") (some "m")
    (some "Doe") (some "John") (some "2000-12-19") (some "m") rfl rfl rfl rfl

/-- C9: `encode` is total and never panics: every call returns `some` result
(`none` is what the caller-guarded `unwrap` panic inside `encode_name` would
produce), and the result is `Ok` or one of the three error variants. -/
theorem C9_total_no_panic (fn gn dob sex : Option String) :
    ∃ res : Except SLK581Error String, encode fn gn dob sex = some res ∧
      ((∃ r, res = Except.ok r) ∨
        res = Except.error SLK581Error.InvalidDateOfBirth ∨
        res = Except.error SLK581Error.UnknownDateOfBirth ∨
        ∃ v, res = Except.error (SLK581Error.UnsupportedSex v)) := by
  refine ⟨encode_result fn gn dob sex, encode_eq fn gn dob sex, ?_⟩
  unfold encode_result
  cases hd : encode_date_of_birth dob with
  | error e =>
    rcases encode_date_of_birth_error dob e hd with h | h <;> subst h <;> simp
  | ok edob =>
    cases hs : encode_sex sex with
    | error e =>
      obtain ⟨v, -, hv⟩ := encode_sex_error sex e hs
      subst hv
      simp
    | ok esex => simp

/-- C10: the cursor scheme is equivalent to direct 0-based indexing into the
cleaned name: the family-name code consists of the cleaned characters at
indices 1, 2 and 4 and the given-name code of those at indices 1 and 2,
each replaced by the placeholder `2` when the index is beyond the cleaned
name's length. -/
theorem C10_direct_indexing (n : String) :
    encode_family_name (some n) = some (String.mk
      [char_at (sanitize_name (to_uppercase n)).toList 1,
       char_at (sanitize_name (to_uppercase n)).toList 2,
       char_at (sanitize_name (to_uppercase n)).toList 4]) ∧
    encode_given_name (some n) = some (String.mk
      [char_at (sanitize_name (to_uppercase n)).toList 1,
       char_at (sanitize_name (to_uppercase n)).toList 2]) := by
  constructor
  · rw [encode_family_name_eq]
    simp [family_code, take5_lookup_101]
  · rw [encode_given_name_eq]
    simp [given_code, take3_lookup_10]


/-- C4: `encode` fails with `UnknownDateOfBirth` exactly when the date input
is absent, fails with `InvalidDateOfBirth` exactly when it is present but
does not parse strictly as `YYYY-MM-DD`, and otherwise the output key embeds
the date reformatted as the 8 characters `DDMMYYYY`, right after the five
name-code characters. -/
theorem C4_date_errors (fn gn dob sex : Option String) :
    (encode fn gn dob sex = some (Except.error SLK581Error.UnknownDateOfBirth) ↔
      dob = none) ∧
    (encode fn gn dob sex = some (Except.error SLK581Error.InvalidDateOfBirth) ↔
      ∃ t, dob = some t ∧ parse_date t = none) ∧
    (∀ t d r, dob = some t → parse_date t = some d →
      encode fn gn dob sex = some (Except.ok r) →
      ((r.toList.drop 5).take 8 = (format_date d).toList ∧
        (format_date d).length = 8)) := by
  simp only [encode_eq, Option.some.injEq]
  cases dob with
  | none =>
    refine ⟨?_, ?_, ?_⟩
    · simp [encode_result, encode_date_of_birth]
    · simp [encode_result, encode_date_of_birth]
    · intro t d r ht
      exact absurd ht (by simp)
  | some t =>
    cases hp : parse_date t with
    | none =>
      refine ⟨?_, ?_, ?_⟩
      · simp [encode_result, encode_date_of_birth, hp]
      · simp [encode_result, encode_date_of_birth, hp]
      · intro t' d r ht' hd'
        obtain rfl : t = t' := by injection ht'
        rw [hp] at hd'
        exact absurd hd' (by simp)
    | some d0 =>
      cases hs : encode_sex sex with
      | error e =>
        obtain ⟨v, -, he⟩ := encode_sex_error sex e hs
        subst he
        refine ⟨?_, ?_, ?_⟩
        · simp [encode_result, encode_date_of_birth, hp, hs]
        · simp [encode_result, encode_date_of_birth, hp, hs]
        · intro t' d r ht' hd' hr
          rw [encode_result] at hr
          simp [encode_date_of_birth, hp, hs] at hr
      | ok esex =>
        refine ⟨?_, ?_, ?_⟩
        · simp [encode_result, encode_date_of_birth, hp, hs]
        · simp [encode_result, encode_date_of_birth, hp, hs]
        · intro t' d r ht' hd' hr
          obtain rfl : t = t' := by injection ht'
          rw [hp] at hd'
          obtain rfl : d0 = d := by injection hd'
          unfold encode_result at hr
          simp only [encode_date_of_birth, hp, hs, Except.ok.injEq] at hr
          refine ⟨?_, format_date_length d0⟩
          rw [← hr]
          exact key_slice _ _ _ _ (family_code_length fn) (given_code_length gn)
            (format_date_length d0)

/-- Witness for C4: the date `2000-12-19` is embedded as `19122000` in the
key of a concrete successful call. -/
theorem C4_date_errors_witness :
    ((("99999191220003" : String).toList.drop 5).take 8 =
      (format_date ⟨2000, 12, 19⟩).toList) ∧
    (format_date (⟨2000, 12, 19⟩ : Date)).length = 8 :=
  (C4_date_errors none none (some "2000-12-19") none).2.2 "2000-12-19"
    ⟨2000, 12, 19⟩ "99999191220003" rfl rfl rfl

/-- C5: sex handling: an absent sex yields code `3` and `encode` never
returns a sex error for it; a present value is matched case-insensitively —
`m`/`male` to `1`, `f`/`female` to `2`, `t`/`trans` to `3`; any other
present value yields `UnsupportedSex` carrying the caller's original,
non-lowercased text. -/
theorem C5_sex_mapping (fn gn dob : Option String) (v : String) :
    encode_sex none = Except.ok UNKNOWN_SEX ∧
    (∀ w, encode fn gn dob none ≠ some (Except.error (SLK581Error.UnsupportedSex w))) ∧
    ((to_lowercase v = "m" ∨ to_lowercase v = "male") →
      encode_sex (some v) = Except.ok MALE) ∧
    ((to_lowercase v = "f" ∨ to_lowercase v = "female") →
      encode_sex (some v) = Except.ok FEMALE) ∧
    ((to_lowercase v = "t" ∨ to_lowercase v = "trans") →
      encode_sex (some v) = Except.ok TRANSGENDER) ∧
    (to_lowercase v ≠ "m" → to_lowercase v ≠ "male" → to_lowercase v ≠ "f" →
      to_lowercase v ≠ "female" → to_lowercase v ≠ "t" → to_lowercase v ≠ "trans" →
      encode_sex (some v) = Except.error (SLK581Error.UnsupportedSex v)) := by
  refine ⟨rfl, ?_, ?_, ?_, ?_, ?_⟩
  · intro w hcontra
    rw [encode_eq] at hcontra
    simp only [Option.some.injEq] at hcontra
    unfold encode_result at hcontra
    cases hd : encode_date_of_birth dob with
    | error e =>
      rw [hd] at hcontra
      rcases encode_date_of_birth_error dob e hd with h | h <;> subst h <;> simp at hcontra
    | ok edob =>
      rw [hd] at hcontra
      simp [encode_sex] at hcontra
  · intro h
    rcases h with h | h <;> simp [encode_sex, h]
  · intro h
    rcases h with h | h <;> simp [encode_sex, h]
  · intro h
    rcases h with h | h <;> simp [encode_sex, h]
  · intro h1 h2 h3 h4 h5 h6
    simp [encode_sex, h1, h2, h3, h4, h5, h6]

/-- Witness for C5 at concrete inputs: `MaLe` maps to the male code and the
unrecognized `TeSt` is returned verbatim inside the error. -/
theorem C5_sex_mapping_witness :
    encode_sex (some "MaLe") = Except.ok MALE ∧
    encode_sex (some "TeSt") = Except.error (SLK581Error.UnsupportedSex "TeSt") :=
  ⟨(C5_sex_mapping none none none "MaLe").2.2.1 (Or.inr rfl),
    (C5_sex_mapping none none none "TeSt").2.2.2.2.2 (by decide) (by decide) (by decide)
      (by decide) (by decide) (by decide)⟩

/-- C6: error precedence: when the date input is invalid (absent, or present
but unparseable) while the sex input is simultaneously invalid (present but
unrecognized), `encode` returns the date error, never the sex error. -/
theorem C6_date_error_precedence (fn gn dob : Option String) (s : String)
    (_hsex : encode_sex (some s) = Except.error (SLK581Error.UnsupportedSex s)) :
    (dob = none →
      encode fn gn dob (some s) = some (Except.error SLK581Error.UnknownDateOfBirth)) ∧
    (∀ t, dob = some t → parse_date t = none →
      encode fn gn dob (some s) = some (Except.error SLK581Error.InvalidDateOfBirth)) := by
  constructor
  · intro h
    subst h
    rw [encode_eq]
    rfl
  · intro t ht hp
    subst ht
    rw [encode_eq]
    unfold encode_result
    simp [encode_date_of_birth, hp]

/-- Witness for C6: with both a malformed date and an unrecognized sex, the
date error is the one returned. -/
theorem C6_date_error_precedence_witness :
    encode none none (some "20001219") (some "test") =
      some (Except.error SLK581Error.InvalidDateOfBirth) :=
  (C6_date_error_precedence none none (some "20001219") "test" rfl).2 "20001219" rfl rfl

end SLK581
